import Mathlib

/-!
Verification of the retrieval-augmented question-answering assistant
(insurance RAG chatbot).  The development shallowly embeds:

* the retrieval core (chunker, vector index, query cache, analyzer,
  composer, orchestrator) — the core is implemented in Python and is
  modelled here from its specification, and
* the three web front-end scripts (knowledge.js, coaching.js,
  simulation.js) — translated directly from the JavaScript source.

Text is modelled as `List Char`; JavaScript numbers are modelled as `Rat`
(with the browser random draw passed in as an explicit argument);
DOM/localStorage state is modelled as explicit state records.
-/

/-! ### Generic helpers -/

/-- JavaScript `String.prototype.trim`: strip whitespace at both ends. -/
def jsTrim (s : List Char) : List Char :=
  ((s.dropWhile Char.isWhitespace).reverse.dropWhile Char.isWhitespace).reverse

/-- JavaScript `Math.round` on a rational: floor of `q + 1/2`. -/
def jsRound (q : Rat) : Int :=
  ⌊q + 1 / 2⌋

/-- JavaScript `list.slice(-n)` guarded by a length check, as used by the
trimming code of `saveSessionData`: keep only the last `n` elements when the
list is longer than `n`. -/
def keepLast (n : Nat) (l : List α) : List α :=
  if n < l.length then l.drop (l.length - n) else l

/-! ### Chunker

Modelled from the spec: the Chunker component (`split(segments, chunk_size,
overlap)`) is part of the Python retrieval core, which is not among the
provided sources.  Per §4.2 it concatenates the segment text, then greedily
slides a window of `chunk_size` characters with `overlap` characters of
repetition between consecutive chunks, preferring to break at a whitespace
boundary within a small tolerance before falling back to a hard cut. -/

/-- Modelled from the spec: whitespace-boundary search of the Chunker.
Scan backwards from the hard cut position `hard`, at most `tol` characters,
for a position just after a whitespace character; fall back to `hard`. -/
def wsBreak (text : List Char) (tol hard : Nat) : Nat :=
  match tol, hard with
  | 0, h => h
  | _ + 1, 0 => 0
  | t + 1, h + 1 => if (text.getD h ' ').isWhitespace then h + 1 else wsBreak text t h

/-- Modelled from the spec: the end position of the chunk starting at
`start`.  The hard cut is at `start + cs`; a whitespace break within the
tolerance is preferred; the cut never falls inside the overlap region
(under the startup invariant `overlap < chunk_size` the clamp is inactive). -/
def chunkEnd (cs ov tol : Nat) (text : List Char) (start : Nat) : Nat :=
  max (start + ov + 1) (wsBreak text tol (start + cs))

/-- Modelled from the spec: the greedy chunking loop.  Emits the window
`[start, e)` and restarts `overlap` characters before `e`; a final window
that reaches the end of the text is emitted whole. -/
def splitFrom (cs ov tol : Nat) (text : List Char) (start : Nat) : List (List Char) :=
  if start + cs < text.length then
    if chunkEnd cs ov tol text start < text.length then
      ((text.drop start).take (chunkEnd cs ov tol text start - start)) ::
        splitFrom cs ov tol text (chunkEnd cs ov tol text start - ov)
    else [text.drop start]
  else [text.drop start]
termination_by text.length - start
decreasing_by
  have hle : start + ov + 1 ≤ chunkEnd cs ov tol text start :=
    le_max_left _ _
  omega

/-- Modelled from the spec: `split` of the Chunker on the concatenated
document text. -/
def chunkSplit (cs ov tol : Nat) (text : List Char) : List (List Char) :=
  splitFrom cs ov tol text 0

/-- Concatenation of the non-overlapping portions of a chunk sequence: the
first chunk whole, every later chunk with its leading `overlap` characters
(shared with its predecessor) removed. -/
def reconstruct (ov : Nat) : List (List Char) → List Char
  | [] => []
  | c :: rest => c ++ (rest.map (List.drop ov)).flatten

/-! ### Vector index

Modelled from the spec: the Vector Index component (§4.4) is part of the
Python retrieval core, which is not among the provided sources.  It stores
(vector, chunk metadata, document id) entries and supports idempotent
insert, atomic delete-by-document, and similarity search with optional
maximal-marginal-relevance diversity re-ranking. -/

/-- Modelled from the spec: a Vector Index Entry — vector, chunk metadata
(document id, chunk index, page) and the chunk text. -/
structure IndexEntry where
  vector : List Rat
  docId : List Char
  chunkIndex : Nat
  page : Nat
  content : List Char
deriving DecidableEq

/-- Modelled from the spec: the Vector Index is its list of entries. -/
structure VectorIndex where
  entries : List IndexEntry
deriving DecidableEq

/-- The freshly created empty index. -/
def emptyIndex : VectorIndex := ⟨[]⟩

/-- Inner-product similarity between two vectors. -/
def dotProduct : List Rat → List Rat → Rat
  | a :: as, b :: bs => a * b + dotProduct as bs
  | _, _ => 0

/-- Modelled from the spec: `add(chunks_with_vectors)` — insert entries;
idempotent under duplicate chunk ids (re-insert replaces the entry with the
same document id and chunk index). -/
def addEntries (idx : VectorIndex) (new : List IndexEntry) : VectorIndex :=
  ⟨idx.entries.filter
      (fun e => !(new.any (fun n => n.docId == e.docId && n.chunkIndex == e.chunkIndex)))
    ++ new⟩

/-- Modelled from the spec: `delete_by_document(document_id)` — remove every
entry whose metadata matches the document id, atomically. -/
def deleteByDocument (idx : VectorIndex) (d : List Char) : VectorIndex :=
  ⟨idx.entries.filter (fun e => !(e.docId == d))⟩

/-- Insertion into a list of scored entries kept in descending score order. -/
def insertDesc (x : IndexEntry × Rat) : List (IndexEntry × Rat) → List (IndexEntry × Rat)
  | [] => [x]
  | y :: ys => if y.2 < x.2 then x :: y :: ys else y :: insertDesc x ys

/-- Sort scored entries by descending similarity score. -/
def sortDesc (l : List (IndexEntry × Rat)) : List (IndexEntry × Rat) :=
  l.foldr insertDesc []

/-- Greatest similarity of a candidate vector to any already-selected entry
(zero when nothing is selected yet). -/
def maxSimTo (sel : List IndexEntry) (v : List Rat) : Rat :=
  (sel.map (fun s => dotProduct s.vector v)).foldr max 0

/-- Modelled from the spec: the maximal-marginal-relevance objective
`lam * relevance - (1 - lam) * max_similarity_to_already_selected`. -/
def mmrScore (lam : Rat) (sel : List IndexEntry) (er : IndexEntry × Rat) : Rat :=
  lam * er.2 - (1 - lam) * maxSimTo sel er.1.vector

/-- First maximiser of `f` in a list. -/
def argmaxBy (f : α → Rat) : List α → Option α
  | [] => none
  | x :: xs => some (xs.foldl (fun b a => if f b < f a then a else b) x)

/-- Modelled from the spec: iterative MMR selection — repeatedly pick the
candidate maximising the MMR objective against the already-selected set. -/
def mmrSelect (lam : Rat) : Nat → List IndexEntry → List (IndexEntry × Rat) →
    List (IndexEntry × Rat)
  | 0, _, _ => []
  | k + 1, sel, cands =>
    match argmaxBy (mmrScore lam sel) cands with
    | none => []
    | some er => er :: mmrSelect lam k (er.1 :: sel) (cands.erase er)

/-- Modelled from the spec: `search(query_vector, k, diversity)` — rank all
entries by inner-product similarity; with `diversity` apply MMR re-ranking
with the default `lam = 1/2`, otherwise return the top `k`. -/
def searchIndex (idx : VectorIndex) (q : List Rat) (k : Nat) (diversity : Bool) :
    List (IndexEntry × Rat) :=
  let scored := sortDesc (idx.entries.map (fun e => (e, dotProduct q e.vector)))
  if diversity then mmrSelect (1 / 2) k [] scored else scored.take k

/-- Modelled from the spec: the document store owned by the Ingestion
Orchestrator — live documents (keyed by source filename) plus the index. -/
structure KnowledgeStore where
  docs : List (List Char)
  index : VectorIndex

/-- Modelled from the spec: the Vector Index Entry invariant — every entry's
document id corresponds to a live Document. -/
def wellFormedStore (ks : KnowledgeStore) : Prop :=
  ∀ e ∈ ks.index.entries, e.docId ∈ ks.docs

/-- Modelled from the spec: `delete(document_id)` of the Ingestion
Orchestrator — destroy the Document and cascade-remove its index entries. -/
def deleteDocument (ks : KnowledgeStore) (d : List Char) : KnowledgeStore :=
  ⟨ks.docs.filter (fun f => !(f == d)), deleteByDocument ks.index d⟩

/-! ### Query cache

Modelled from the spec: the Query Cache component (§4.5) is part of the
Python retrieval core, which is not among the provided sources.  Bounded
capacity with least-recently-used eviction plus TTL expiry; the key
incorporates every answer-affecting parameter. -/

/-- Status of an answer returned over the query boundary. -/
inductive QueryStatus where
  | success
  | failure (message : List Char)
deriving DecidableEq

/-- Per-query Retrieval Metrics attached to the response. -/
structure Metrics where
  queryTime : Nat
  relevanceScore : Rat
  confidenceScore : Rat
  sourceCount : Nat
deriving DecidableEq

/-- A source citation carried by an answer: filename, page, excerpt, score. -/
structure SourceRef where
  filename : List Char
  page : Nat
  excerpt : List Char
  score : Rat
deriving DecidableEq

/-- An answer produced by the Query Orchestrator. -/
structure Answer where
  status : QueryStatus
  text : List Char
  sources : List SourceRef
  metrics : Metrics
deriving DecidableEq

/-- Modelled from the spec: a Cache Entry — the answer plus its creation
and last-use timestamps. -/
structure CacheEntry where
  answer : Answer
  createdAt : Nat
  lastUsed : Nat
deriving DecidableEq

/-- Modelled from the spec: the Query Cache.  Entries are kept most recently
used first, so LRU eviction drops from the tail. -/
structure QueryCache where
  entries : List (List Char × CacheEntry)
  capacity : Nat
  ttl : Nat
deriving DecidableEq

/-- A fresh cache with the spec defaults (capacity 100 entries). -/
def freshCache (ttl : Nat) : QueryCache := ⟨[], 100, ttl⟩

/-- Modelled from the spec: cache lookup.  A live hit refreshes the entry's
recency (moves it to the front); an expired entry is dropped. -/
def cacheGet (c : QueryCache) (key : List Char) (now : Nat) :
    Option Answer × QueryCache :=
  match c.entries.find? (fun p => p.1 == key) with
  | none => (none, c)
  | some (k, e) =>
    if now - e.createdAt ≤ c.ttl then
      (some e.answer,
        { c with entries :=
            (k, { e with lastUsed := now }) :: c.entries.filter (fun p => !(p.1 == key)) })
    else
      (none, { c with entries := c.entries.filter (fun p => !(p.1 == key)) })

/-- Modelled from the spec: cache store.  The new entry goes to the front
(most recently used); anything beyond `capacity` is evicted LRU-last. -/
def cachePut (c : QueryCache) (key : List Char) (a : Answer) (now : Nat) : QueryCache :=
  { c with entries :=
      ((key, ⟨a, now, now⟩) :: c.entries.filter (fun p => !(p.1 == key))).take c.capacity }

/-! ### Query analyzer, answer composer, query orchestrator

Modelled from the spec: the Query Analyzer (§4.6), Answer Composer (§4.7)
and Query Orchestrator (§4.9) are part of the Python retrieval core, which
is not among the provided sources. -/

/-- Intent labels of the Query Analyzer (small closed set). -/
inductive QueryIntent where
  | definition
  | comparison
  | procedure
  | objectionHandling
deriving DecidableEq

/-- Supported languages of the Query Analyzer. -/
inductive QueryLanguage where
  | english
  | thai
deriving DecidableEq

/-- Modelled from the spec: query sanitization — trim, reject
empty/whitespace-only input (`none` signals `InvalidQueryError`), strip
control characters, cap the length. -/
def sanitizeQuery (raw : List Char) : Option (List Char) :=
  let t := jsTrim raw
  if t.isEmpty then none
  else some ((t.filter (fun c => 31 < c.toNat)).take 1000)

/-- Modelled from the spec: language detection — a character in the Thai
block marks the query as Thai. -/
def detectLanguage (q : List Char) : QueryLanguage :=
  if q.any (fun c => 0x0E00 ≤ c.toNat && c.toNat ≤ 0x0E7F) then .thai else .english

/-- Whether `pat` occurs as a contiguous run inside `s`. -/
def containsRun (s pat : List Char) : Bool :=
  decide (pat <:+: s)

/-- Modelled from the spec: intent classification into the closed set. -/
def classifyIntent (q : List Char) : QueryIntent :=
  if containsRun q ("compare".toList) || containsRun q (" vs ".toList) then .comparison
  else if containsRun q ("objection".toList) then .objectionHandling
  else if containsRun q ("how ".toList) then .procedure
  else .definition

/-- Modelled from the spec: keyword extraction for query expansion — the
whitespace-separated words longer than three characters. -/
def extractKeywords (q : List Char) : List (List Char) :=
  (q.splitOnP Char.isWhitespace).filter (fun w => 3 < w.length)

/-- Query Analysis: ephemeral record derived from one raw query. -/
structure QueryAnalysis where
  enhanced : List Char
  keywords : List (List Char)
  language : QueryLanguage
  intent : QueryIntent
  confidence : Rat
deriving DecidableEq

/-- Modelled from the spec: `analyze(raw_query)` on an already-sanitized
query — enhanced text, keywords, language, intent, confidence. -/
def mkAnalysis (q : List Char) : QueryAnalysis :=
  { enhanced := q
    keywords := extractKeywords q
    language := detectLanguage q
    intent := classifyIntent q
    confidence := if classifyIntent q = .definition then 1 / 2 else 9 / 10 }

/-- Modelled from the spec: the deterministic generic text composed when
retrieval returned zero chunks (the only case in which a generic
"not found" answer is allowed). -/
def noResultsText : List Char :=
  "No relevant information was found in the knowledge base.".toList

/-- Modelled from the spec: the deterministic local fallback answer
assembled from the raw retrieved chunk text. -/
def composedText (chunks : List (IndexEntry × Rat)) : List Char :=
  "Based on the retrieved documents: ".toList ++
    (chunks.map (fun er => er.1.content ++ " ".toList)).flatten

/-- Modelled from the spec: `compose(query_analysis, retrieved_chunks)` —
deterministic composition carrying sources (filename, page, excerpt, score),
a per-source relevance score and an overall confidence; with zero retrieved
chunks it still succeeds, with an empty source list and low confidence. -/
def composeAnswer (qa : QueryAnalysis) (chunks : List (IndexEntry × Rat)) : Answer :=
  if chunks.isEmpty then
    { status := .success
      text := noResultsText
      sources := []
      metrics := { queryTime := 0, relevanceScore := 0, confidenceScore := 1 / 10
                   sourceCount := 0 } }
  else
    { status := .success
      text := composedText chunks
      sources := chunks.map (fun er =>
        { filename := er.1.docId, page := er.1.page
          excerpt := er.1.content.take 100, score := er.2 })
      metrics := { queryTime := 0
                   relevanceScore := (chunks.map (fun er => er.2)).foldr max 0
                   confidenceScore := 1 / 2 + qa.confidence / 4
                   sourceCount := chunks.length } }

/-- Modelled from the spec: the answer reporting `InvalidQueryError`
(reported immediately, no retrieval attempted). -/
def invalidQueryAnswer : Answer :=
  { status := .failure ("InvalidQueryError: empty query".toList)
    text := []
    sources := []
    metrics := { queryTime := 0, relevanceScore := 0, confidenceScore := 0
                 sourceCount := 0 } }

/-- Modelled from the spec: the cache key incorporates every parameter that
affects the answer — query text, web-search flag, language override. -/
def cacheKey (raw : List Char) (useWebSearch : Bool) (language : List Char) : List Char :=
  raw ++ "|".toList ++ (if useWebSearch then "1".toList else "0".toList)
    ++ "|".toList ++ language

/-- Options accepted over the query boundary. -/
structure AskOptions where
  useWebSearch : Bool
  language : List Char
deriving DecidableEq

/-- The whole mutable state of the retrieval core. -/
structure RagState where
  store : KnowledgeStore
  cache : QueryCache

/-- A freshly created core: empty index, no documents, empty cache. -/
def freshRagState (ttl : Nat) : RagState := ⟨⟨[], emptyIndex⟩, freshCache ttl⟩

/-- An answer with its query time zeroed, as served from the cache. -/
def zeroTimeAnswer (a : Answer) : Answer :=
  { a with metrics := { a.metrics with queryTime := 0 } }

/-- Modelled from the spec: `ask(raw_query, options)` of the Query
Orchestrator.  Sequence: sanitization (immediate `InvalidQueryError`, no
retrieval) → cache lookup (a hit short-circuits everything downstream) →
query analysis → vector search (k = 5, diversity on) → answer composition →
cache store.  The returned `Bool` records whether retrieval/generation work
was performed. -/
def askCore (s : RagState) (raw : List Char) (opts : AskOptions) (now : Nat) :
    Answer × Bool × RagState :=
  match sanitizeQuery raw with
  | none => (invalidQueryAnswer, false, s)
  | some q =>
    let key := cacheKey raw opts.useWebSearch opts.language
    let g := cacheGet s.cache key now
    match g.1 with
    | some a => (zeroTimeAnswer a, false, { s with cache := g.2 })
    | none =>
      let qa := mkAnalysis q
      let results := searchIndex s.store.index (qa.enhanced.map (fun c => (c.toNat : Rat))) 5 true
      let a0 := composeAnswer qa results
      let a := { a0 with metrics := { a0.metrics with queryTime := 1 + results.length } }
      (a, true, { s with cache := cachePut g.2 key a now })

/-- The answer computed by `askCore` on a cache miss for the sanitized
query `q` (spelled out for use in the correctness lemmas). -/
def askMissAnswer (s : RagState) (q : List Char) : Answer :=
  let qa := mkAnalysis q
  let results := searchIndex s.store.index (qa.enhanced.map (fun c => (c.toNat : Rat))) 5 true
  let a0 := composeAnswer qa results
  { a0 with metrics := { a0.metrics with queryTime := 1 + results.length } }

/-! ### Web chat front-end (knowledge.js)

Translated from `src/interfaces/web/static/js/knowledge.js`.  Only the
state the handlers touch is modelled: the input box, the processing flag,
the chat message list (content, sender) and the log of request bodies sent
to `/api/ask`.  The HTTP round trip is passed in as an explicit outcome
(`Except` models the thrown network error). -/

/-- A JSON value, for the request bodies built by the front-end. -/
inductive Json where
  | str (s : List Char)
  | jbool (b : Bool)
  | num (q : Rat)
  | obj (fields : List (List Char × Json))
  | arr (elems : List Json)

/-- Field lookup in a JSON object. -/
def jsonLookup (j : Json) (key : List Char) : Option Json :=
  match j with
  | .obj fields => (fields.find? (fun p => p.1 == key)).map (fun p => p.2)
  | _ => none

/-- The field names of a JSON object. -/
def jsonKeys (j : Json) : List (List Char) :=
  match j with
  | .obj fields => fields.map (fun p => p.1)
  | _ => []

/-- The body of the `fetch('/api/ask', ...)` request built by `askQuestion`
(knowledge.js lines 53-56): `JSON.stringify({question: question,
use_web_search: false})`. -/
def askRequestBody (question : List Char) : Json :=
  .obj [("question".toList, .str question), ("use_web_search".toList, .jbool false)]

/-- One source entry of the `/api/ask` response as consumed by the
front-end: `source.metadata?.filename` and `source.content`. -/
structure AskSource where
  filename : Option (List Char)
  content : List Char

/-- The `/api/ask` response shape consumed by `askQuestion`: `data.status`,
`data.answer`, `data.sources`, `data.message`. -/
structure AskApiResponse where
  status : List Char
  answer : List Char
  sources : List AskSource
  message : List Char

/-- The filename displayed for a source: `source.metadata?.filename ||
'Unknown'` (knowledge.js line 68). -/
def displayFilename (s : AskSource) : List Char :=
  match s.filename with
  | some f => if f.isEmpty then "Unknown".toList else f
  | none => "Unknown".toList

/-- One rendered source item (knowledge.js lines 69-70): index, filename,
and the first 100 characters of the content followed by an ellipsis. -/
def renderSourceItem (i : Nat) (s : AskSource) : List Char :=
  "<div class=\"source-item\"><strong>".toList ++ (toString (i + 1)).toList
    ++ ". ".toList ++ displayFilename s ++ "</strong><br>".toList
    ++ (s.content.take 100 ++ "...".toList) ++ "</div>".toList

/-- The `forEach` over `data.sources` with its running index. -/
def renderSourceItems (i : Nat) : List AskSource → List Char
  | [] => []
  | s :: rest => renderSourceItem i s ++ renderSourceItems (i + 1) rest

/-- The bot message built on a successful response (knowledge.js lines
62-73): the answer, then — when sources exist — the sources block. -/
def renderBotMessage (data : AskApiResponse) : List Char :=
  data.answer ++
    (if data.sources.isEmpty then []
     else "\\n\\n<div class=\"sources\"><h4>Sources:</h4>".toList
       ++ renderSourceItems 0 data.sources ++ "</div>".toList)

/-- The state of the knowledge-mode page touched by `askQuestion`. -/
structure KnowledgePage where
  inputValue : List Char
  isProcessing : Bool
  messages : List (List Char × List Char)
  requests : List Json

/-- Translated from knowledge.js lines 31-86 (`askQuestion`): trim the
input; bail out on empty input or while processing (no message, no
request); otherwise clear the input, add the user message, send the
request, and append the bot message according to the response (success
rendering, error message, or caught network error). -/
def askQuestionFE (st : KnowledgePage) (api : Except (List Char) AskApiResponse) :
    KnowledgePage :=
  let question := jsTrim st.inputValue
  if question.isEmpty || st.isProcessing then st
  else
    let st1 := { st with
      inputValue := []
      messages := st.messages ++ [(question, "user".toList)]
      requests := st.requests ++ [askRequestBody question] }
    match api with
    | .error m =>
      { st1 with messages := st1.messages ++ [("Network error: ".toList ++ m, "bot".toList)] }
    | .ok data =>
      if data.status == "success".toList then
        { st1 with messages := st1.messages ++ [(renderBotMessage data, "bot".toList)] }
      else
        { st1 with messages :=
            st1.messages ++ [("Error: ".toList ++ data.message, "bot".toList)] }

/-! ### Coaching front-end (coaching.js)

Translated from `src/interfaces/web/static/js/coaching.js`. -/

/-- The offline competitive-analysis response (coaching.js line 234). -/
def competitiveResp : List Char :=
  ("## Competitive Analysis Guidance 🏆\n\n**UOB\x27s Core Advantages:**\n- Bank Integration: Seamless banking + insurance\n- Personal RM support vs call centers\n- AA- rating provides customer confidence\n\n*Offline coaching mode*").toList

/-- The offline objection-handling response (coaching.js line 235). -/
def objectionResp : List Char :=
  ("## Objection Handling Framework 💪\n\n**4-Step Process:**\n1. Listen & Acknowledge\n2. Empathize with customer\n3. Educate with benefits\n4. Confirm understanding\n\n*Offline coaching mode*").toList

/-- The offline general response (coaching.js line 236). -/
def generalResp : List Char :=
  ("## General Coaching 📚\n\n**Excellence Framework:**\n- Prepare thoroughly\n- Build rapport through listening\n- Focus on customer benefits\n\n*Offline coaching mode*").toList

/-- The key lookup into the `fallbackResponses` object literal. -/
def fallbackResponsesLookup (ct : List Char) : Option (List Char) :=
  if ct = "competitive".toList then some competitiveResp
  else if ct = "objection_handling".toList then some objectionResp
  else if ct = "general".toList then some generalResp
  else none

/-- Translated from coaching.js lines 232-239 (`generateFallbackCoaching`):
`fallbackResponses[coachingType] || fallbackResponses['general']` — a
missing key (and a falsy empty value) falls back to the general response.
The `question` argument is accepted and ignored, as in the source. -/
def generateFallbackCoaching (_question ct : List Char) : List Char :=
  match fallbackResponsesLookup ct with
  | some s => if s.isEmpty then generalResp else s
  | none => generalResp

/-- The `/api/coaching` response shape consumed by `askCoachingQuestion`:
status, answer, message, optional insights (`key_focus_areas`), practice
suggestions. -/
structure CoachingApiResponse where
  status : List Char
  answer : List Char
  message : List Char
  insights : Option (List (List Char))
  practiceSuggestions : List (List Char)

/-- Translated from coaching.js lines 222-225 (`displayCoachingInsights`). -/
def insightsMessage (areas : List (List Char)) : List Char :=
  "## 🎯 Coaching Insights\n\n**จุดสำคัญที่ต้องเน้น:**\n".toList
    ++ List.intercalate "\n".toList (areas.map (fun a => "• ".toList ++ a))

/-- Numbered lines `1. ...`, `2. ...` of the practice suggestions. -/
def numberedLines (i : Nat) : List (List Char) → List (List Char)
  | [] => []
  | s :: rest => ((toString (i + 1)).toList ++ ". ".toList ++ s) :: numberedLines (i + 1) rest

/-- Translated from coaching.js lines 227-230 (`displayPracticeSuggestions`). -/
def practiceMessage (suggestions : List (List Char)) : List Char :=
  "## 💪 คำแนะนำในการฝึกฝน\n\n".toList
    ++ List.intercalate "\n".toList (numberedLines 0 suggestions)

/-- The state of the coaching page touched by `askCoachingQuestion`. -/
structure CoachingPage where
  inputValue : List Char
  isProcessing : Bool
  messages : List (List Char × List Char)
  apiCalls : Nat
  coachingSessions : Nat

/-- Translated from coaching.js lines 140-219 (`askCoachingQuestion`): trim
the input; bail out on empty input or while processing; otherwise clear the
input, add the user message and call the API.  On success append the
answer (plus optional insights and practice messages) and bump the session
counter; on an error status append the error message; on a thrown network
error append the offline notice followed by the locally generated fallback
coaching answer. -/
def askCoachingQuestionFE (st : CoachingPage) (ct : List Char)
    (api : Except (List Char) CoachingApiResponse) : CoachingPage :=
  let question := jsTrim st.inputValue
  if question.isEmpty || st.isProcessing then st
  else
    let st1 := { st with
      inputValue := []
      messages := st.messages ++ [(question, "user".toList)]
      apiCalls := st.apiCalls + 1 }
    match api with
    | .error _ =>
      { st1 with messages := st1.messages
          ++ [("Network error. Using offline coaching mode.".toList, "bot".toList),
              (generateFallbackCoaching question ct, "bot".toList)] }
    | .ok data =>
      if data.status == "success".toList then
        { st1 with
          messages := st1.messages ++ [(data.answer, "bot".toList)]
            ++ (match data.insights with
                | some areas => [(insightsMessage areas, "insights".toList)]
                | none => [])
            ++ (if data.practiceSuggestions.isEmpty then []
                else [(practiceMessage data.practiceSuggestions, "practice".toList)])
          coachingSessions := st1.coachingSessions + 1 }
      else
        { st1 with messages :=
            st1.messages ++ [("Error: ".toList ++ data.message, "bot".toList)] }

/-! ### Simulation front-end (simulation.js)

Translated from `src/interfaces/web/static/js/simulation.js`.  The
`sessionData` object, its validation, the trimming save path, and the local
performance scoring (with the `Math.random()` draw passed in explicitly). -/

/-- A record pushed onto `sessionData.detailedMetrics` by
`updateSessionData` (simulation.js lines 1044-1056). -/
structure SessionMetricRecord where
  sessionId : List Char
  timestamp : List Char
  scenarioKey : List Char
  overallScore : Rat
  detailedSkillScores : List (List Char × Rat)
  turnCount : Nat
  duration : Rat
  difficulty : List Char
  personality : List Char
deriving DecidableEq

/-- A record pushed onto `sessionData.recentSessions` by
`updateSessionData` (simulation.js lines 1073-1081). -/
structure RecentSessionRecord where
  id : List Char
  scenarioName : List Char
  score : Rat
  date : List Char
  duration : Rat
deriving DecidableEq

/-- A record pushed onto `sessionData.skillsHistory[skill]` by
`updateSessionData` (simulation.js lines 1064-1068). -/
structure SkillHistoryEntry where
  score : Rat
  timestamp : List Char
  sessionId : List Char
deriving DecidableEq

/-- The `sessionData` object (simulation.js lines 13-29).  The
`skillsHistory` object is modelled as an association list over its keys. -/
structure SessionData where
  scores : List Rat
  sessions : Rat
  totalScore : Rat
  bestScore : Rat
  detailedMetrics : List SessionMetricRecord
  recentSessions : List RecentSessionRecord
  skillsHistory : List (List Char × List SkillHistoryEntry)
  lastUpdated : Option (List Char)
deriving DecidableEq

/-- The two localStorage keys used by simulation.js:
`uob_simulation_data` and `uob_simulation_backup`. -/
structure SimStorage where
  simulationData : Option SessionData
  simulationBackup : Option SessionData
deriving DecidableEq

/-- Translated from simulation.js lines 210-250 (`validateSessionData`).
The structural and `typeof` checks hold by construction in the typed
model; the consistency repair (sessions/totalScore recomputed from
`scores`) and the score-range check are modelled.  Returns the verdict
together with the (possibly repaired) data, since the source mutates the
global `sessionData` in place. -/
def validateSessionData (sd : SessionData) : Bool × SessionData :=
  let sd1 :=
    if ((sd.scores.length : Rat) ≠ sd.sessions) then
      { sd with sessions := (sd.scores.length : Rat), totalScore := sd.scores.sum }
    else sd
  if sd1.scores.any (fun s => decide (s < 0 ∨ 100 < s)) then (false, sd1)
  else (true, sd1)

/-- The three trimming steps of `saveSessionData` (simulation.js lines
180-195): keep the last 50 detailed metrics, the last 20 recent sessions,
and the last 20 entries of every skill history. -/
def trimSession (sd : SessionData) : SessionData :=
  { sd with
    detailedMetrics := keepLast 50 sd.detailedMetrics
    recentSessions := keepLast 20 sd.recentSessions
    skillsHistory := sd.skillsHistory.map (fun p => (p.1, keepLast 20 p.2)) }

/-- Translated from simulation.js lines 163-207 (`saveSessionData`): back
up the current data, stamp `lastUpdated`, validate (restoring from the
just-written backup and returning early on failure), trim the three lists,
and only then write `uob_simulation_data`.  Returns the new storage, the
new in-memory `sessionData`, and whether the session-data key was
written. -/
def saveSessionData (storage : SimStorage) (sd : SessionData) (now : List Char) :
    SimStorage × SessionData × Bool :=
  let storage1 := { storage with simulationBackup := some sd }
  let sd1 := { sd with lastUpdated := some now }
  let v := validateSessionData sd1
  if v.1 then
    let sd2 := trimSession v.2
    ({ storage1 with simulationData := some sd2 }, sd2, true)
  else
    match storage1.simulationBackup with
    | some b => (storage1, b, false)
    | none =>
      let sd2 := trimSession v.2
      ({ storage1 with simulationData := some sd2 }, sd2, true)

/-- Translated from simulation.js lines 1088-1107
(`calculateLocalPerformanceScore`).  The conversation history is the list
of turns' optional `user_message` strings; `rand` is the `Math.random()`
draw in `[0, 1)`.  Base 60, plus an engagement bonus capped at 20, plus
length bonuses at average response lengths over 50 and 100, plus the random
variation `rand * 15 - 7`, rounded and clamped to `[0, 100]`. -/
def calculateLocalPerformanceScore (hist : List (Option (List Char))) (tc : Nat)
    (rand : Rat) : Int :=
  let base0 : Rat := 60 + min ((tc : Rat) * 3) 20
  let userMsgs := hist.filterMap (fun m =>
    match m with
    | some s => if s.isEmpty then none else some s
    | none => none)
  let totalLen : Rat := ((userMsgs.map List.length).sum : Nat)
  let avg := totalLen / max (tc : Rat) 1
  let base1 := base0 + (if 50 < avg then 5 else 0) + (if 100 < avg then 5 else 0)
    + (rand * 15 - 7)
  min (max (jsRound base1) 0) 100

/-- Translated from simulation.js lines 1120-1137 (`generateLocalFeedback`):
a deterministic function of the score alone. -/
def generateLocalFeedback (score : Int) : List Char × List Char :=
  (if score < 70 then "โฟกัสการสร้างความสัมพันธ์ตั้งแต่เริ่มต้น".toList
   else "พัฒนาเทคนิคการปิดการขาย".toList,
   if 75 ≤ score then "ดี".toList else "ต้องปรับปรุง".toList)

/-! ### Helper lemmas -/

theorem keepLast_length_le (n : Nat) (l : List α) : (keepLast n l).length ≤ n := by
  unfold keepLast
  split
  · simp only [List.length_drop]
    omega
  · omega

theorem chunkEnd_ge (cs ov tol : Nat) (text : List Char) (start : Nat) :
    start + ov + 1 ≤ chunkEnd cs ov tol text start :=
  le_max_left _ _

theorem splitFrom_drop_flatten (cs ov tol : Nat) (text : List Char) :
    ∀ (n start : Nat), text.length - start ≤ n →
      ((splitFrom cs ov tol text start).map (List.drop ov)).flatten = text.drop (start + ov) := by
  intro n
  induction n with
  | zero =>
    intro start hn
    rw [splitFrom]
    have hc : ¬ start + cs < text.length := by omega
    simp only [hc, if_false, List.map_cons, List.map_nil, List.flatten_cons,
      List.flatten_nil, List.append_nil]
    rw [List.drop_drop]
  | succ n ih =>
    intro start hn
    rw [splitFrom]
    by_cases hc : start + cs < text.length
    · by_cases he : chunkEnd cs ov tol text start < text.length
      · have hge := chunkEnd_ge cs ov tol text start
        simp only [hc, if_true, he, List.map_cons, List.flatten_cons]
        rw [ih (chunkEnd cs ov tol text start - ov) (by omega)]
        rw [List.drop_take, List.drop_drop]
        have h1 : chunkEnd cs ov tol text start - ov + ov = chunkEnd cs ov tol text start := by
          omega
        rw [h1]
        have h4 : List.drop (chunkEnd cs ov tol text start) text
            = List.drop (chunkEnd cs ov tol text start - start - ov)
                (List.drop (start + ov) text) := by
          rw [List.drop_drop]
          congr 1
          omega
        rw [h4, List.take_append_drop]
      · simp only [hc, if_true, he, if_false, List.map_cons, List.map_nil,
          List.flatten_cons, List.flatten_nil, List.append_nil]
        rw [List.drop_drop]
    · simp only [hc, if_false, List.map_cons, List.map_nil, List.flatten_cons,
        List.flatten_nil, List.append_nil]
      rw [List.drop_drop]

theorem reconstruct_chunkSplit (cs ov tol : Nat) (text : List Char) :
    reconstruct ov (chunkSplit cs ov tol text) = text := by
  unfold chunkSplit
  rw [splitFrom]
  by_cases hc : 0 + cs < text.length
  · by_cases he : chunkEnd cs ov tol text 0 < text.length
    · have hge := chunkEnd_ge cs ov tol text 0
      simp only [hc, if_true, he, reconstruct]
      rw [splitFrom_drop_flatten cs ov tol text text.length
        (chunkEnd cs ov tol text 0 - ov) (by omega)]
      have h1 : chunkEnd cs ov tol text 0 - ov + ov = chunkEnd cs ov tol text 0 := by omega
      rw [h1]
      simp only [List.drop_zero, Nat.sub_zero]
      exact List.take_append_drop _ text
    · simp only [hc, if_true, he, if_false, reconstruct, List.map_nil, List.flatten_nil,
        List.append_nil, List.drop_zero]
  · simp only [hc, if_false, reconstruct, List.map_nil, List.flatten_nil,
      List.append_nil, List.drop_zero]

theorem chunkSplit_short (cs ov tol : Nat) (text : List Char) (h : text.length < cs) :
    chunkSplit cs ov tol text = [text] := by
  unfold chunkSplit
  rw [splitFrom]
  have hc : ¬ 0 + cs < text.length := by omega
  simp only [hc, if_false, List.drop_zero]

theorem mem_insertDesc {x y : IndexEntry × Rat} :
    ∀ {l : List (IndexEntry × Rat)}, x ∈ insertDesc y l → x = y ∨ x ∈ l := by
  intro l
  induction l with
  | nil =>
    intro h
    simp only [insertDesc, List.mem_singleton] at h
    exact Or.inl h
  | cons z zs ih =>
    intro h
    simp only [insertDesc] at h
    split at h
    · rcases List.mem_cons.mp h with h1 | h1
      · exact Or.inl h1
      · exact Or.inr h1
    · rcases List.mem_cons.mp h with h1 | h1
      · exact Or.inr (List.mem_cons.mpr (Or.inl h1))
      · rcases ih h1 with h2 | h2
        · exact Or.inl h2
        · exact Or.inr (List.mem_cons.mpr (Or.inr h2))

theorem mem_sortDesc {x : IndexEntry × Rat} :
    ∀ {l : List (IndexEntry × Rat)}, x ∈ sortDesc l → x ∈ l := by
  intro l
  induction l with
  | nil => intro h; exact absurd h (List.not_mem_nil x)
  | cons z zs ih =>
    intro h
    simp only [sortDesc, List.foldr_cons] at h
    rcases mem_insertDesc h with h1 | h1
    · exact List.mem_cons.mpr (Or.inl h1)
    · exact List.mem_cons.mpr (Or.inr (ih h1))

theorem argmaxBy_mem {f : α → Rat} :
    ∀ {l : List α} {x : α}, argmaxBy f l = some x → x ∈ l := by
  have aux : ∀ (l : List α) (acc : α),
      l.foldl (fun b a => if f b < f a then a else b) acc ∈ acc :: l := by
    intro l
    induction l with
    | nil => intro acc; simp
    | cons z zs ih =>
      intro acc
      simp only [List.foldl_cons]
      by_cases h : f acc < f z
      · simp only [h, if_true]
        rcases List.mem_cons.mp (ih z) with h1 | h1
        · rw [h1]; simp
        · simp [h1]
      · simp only [h, if_false]
        rcases List.mem_cons.mp (ih acc) with h1 | h1
        · rw [h1]; simp
        · simp [h1]
  intro l x h
  cases l with
  | nil => simp [argmaxBy] at h
  | cons z zs =>
    simp only [argmaxBy, Option.some.injEq] at h
    rw [← h]
    exact aux zs z

theorem mem_mmrSelect {lam : Rat} :
    ∀ {k : Nat} {sel : List IndexEntry} {cands : List (IndexEntry × Rat)}
      {x : IndexEntry × Rat}, x ∈ mmrSelect lam k sel cands → x ∈ cands := by
  intro k
  induction k with
  | zero => intro sel cands x h; simp [mmrSelect] at h
  | succ k ih =>
    intro sel cands x h
    simp only [mmrSelect] at h
    rcases hma : argmaxBy (mmrScore lam sel) cands with _ | er
    · rw [hma] at h; simp at h
    · rw [hma] at h
      rcases List.mem_cons.mp h with h1 | h1
      · rw [h1]; exact argmaxBy_mem hma
      · exact (cands.erase_subset er) (ih h1)

theorem mem_searchIndex {idx : VectorIndex} {q : List Rat} {k : Nat} {div : Bool}
    {p : IndexEntry × Rat} (h : p ∈ searchIndex idx q k div) : p.1 ∈ idx.entries := by
  simp only [searchIndex] at h
  have hmem : p ∈ idx.entries.map (fun e => (e, dotProduct q e.vector)) := by
    by_cases hd : div
    · rw [if_pos hd] at h
      exact mem_sortDesc (mem_mmrSelect h)
    · rw [if_neg hd] at h
      exact mem_sortDesc (List.take_subset _ _ h)
  rcases List.mem_map.mp hmem with ⟨e, he, hpe⟩
  rw [← hpe]
  exact he

theorem cacheGet_snd_capacity (c : QueryCache) (key : List Char) (now : Nat) :
    ((cacheGet c key now).2).capacity = c.capacity := by
  unfold cacheGet
  rcases hf : c.entries.find? (fun p => p.1 == key) with _ | ⟨k, e⟩
  · rw [hf]
  · rw [hf]
    dsimp only
    split <;> rfl

theorem cacheGet_snd_ttl (c : QueryCache) (key : List Char) (now : Nat) :
    ((cacheGet c key now).2).ttl = c.ttl := by
  unfold cacheGet
  rcases hf : c.entries.find? (fun p => p.1 == key) with _ | ⟨k, e⟩
  · rw [hf]
  · rw [hf]
    dsimp only
    split <;> rfl

theorem cacheGet_cachePut_same (c : QueryCache) (key : List Char) (a : Answer)
    (t1 t2 : Nat) (hcap : 1 ≤ c.capacity) (httl : t2 - t1 ≤ c.ttl) :
    (cacheGet (cachePut c key a t1) key t2).1 = some a := by
  obtain ⟨m, hm⟩ : ∃ m, c.capacity = m + 1 := ⟨c.capacity - 1, by omega⟩
  unfold cacheGet cachePut
  simp only [hm, List.take_succ_cons, List.find?_cons]
  have hbeq : (key == key) = true := by simp
  simp only [hbeq]
  simp only [httl, if_true]

theorem jsTrim_of_all_whitespace {s : List Char} (h : ∀ c ∈ s, c.isWhitespace) :
    jsTrim s = [] := by
  unfold jsTrim
  rw [List.dropWhile_eq_nil_iff.mpr h]
  simp

theorem sanitizeQuery_of_all_whitespace {s : List Char} (h : ∀ c ∈ s, c.isWhitespace) :
    sanitizeQuery s = none := by
  unfold sanitizeQuery
  rw [jsTrim_of_all_whitespace h]
  rfl

theorem part_append_right {x a b : List Char} (h : x <:+: a) : x <:+: a ++ b := by
  obtain ⟨s, t, hst⟩ := h
  exact ⟨s, t ++ b, by rw [← hst]; simp⟩

theorem part_append_left {x a b : List Char} (h : x <:+: b) : x <:+: a ++ b := by
  obtain ⟨s, t, hst⟩ := h
  exact ⟨a ++ s, t, by rw [← hst]; simp⟩

theorem displayFilename_within_item (i : Nat) (s : AskSource) :
    displayFilename s <:+: renderSourceItem i s := by
  unfold renderSourceItem
  refine ⟨"<div class=\"source-item\"><strong>".toList ++ (toString (i + 1)).toList
    ++ ". ".toList, "</strong><br>".toList ++ (s.content.take 100 ++ "...".toList)
    ++ "</div>".toList, ?_⟩
  simp

theorem excerpt_within_item (i : Nat) (s : AskSource) :
    s.content.take 100 <:+: renderSourceItem i s := by
  unfold renderSourceItem
  refine ⟨"<div class=\"source-item\"><strong>".toList ++ (toString (i + 1)).toList
    ++ ". ".toList ++ displayFilename s ++ "</strong><br>".toList,
    "...".toList ++ "</div>".toList, ?_⟩
  simp

theorem item_within_items {s : AskSource} :
    ∀ (l : List AskSource) (i : Nat), s ∈ l →
      ∃ j, renderSourceItem j s <:+: renderSourceItems i l := by
  intro l
  induction l with
  | nil => intro i h; exact absurd h (List.not_mem_nil s)
  | cons z zs ih =>
    intro i h
    rcases List.mem_cons.mp h with h1 | h1
    · refine ⟨i, ?_⟩
      rw [h1]
      unfold renderSourceItems
      exact part_append_right ⟨[], [], by simp⟩
    · obtain ⟨j, hj⟩ := ih (i + 1) h1
      refine ⟨j, ?_⟩
      unfold renderSourceItems
      exact part_append_left hj

/-! ### Claim theorems -/

/-- C1.  Chunking round-trip: for every document, concatenating the
non-overlapping portions of all chunks produced by `split` reconstructs the
original document text and no text is dropped; and every document shorter
than `chunk_size` yields exactly one chunk (the whole document). -/
theorem claim1_chunking_round_trip (cs ov tol : Nat) (text : List Char) :
    reconstruct ov (chunkSplit cs ov tol text) = text
    ∧ (text.length < cs → chunkSplit cs ov tol text = [text]) :=
  ⟨reconstruct_chunkSplit cs ov tol text, chunkSplit_short cs ov tol text⟩

/-- Witness for C1 at a concrete document. -/
theorem claim1_witness :
    reconstruct 3 (chunkSplit 10 3 2 ("hello world, this is a test document".toList))
        = "hello world, this is a test document".toList
    ∧ chunkSplit 10 3 2 ("ab".toList) = ["ab".toList] :=
  ⟨(claim1_chunking_round_trip 10 3 2 ("hello world, this is a test document".toList)).1,
   (claim1_chunking_round_trip 10 3 2 ("ab".toList)).2 (by decide)⟩

/-- C2.  Delete completeness: after `delete(document_id)`, `search` never
returns a chunk whose metadata references that document, for every query
vector, every `k` and either diversity mode; every remaining index entry's
document id differs from the deleted one (no orphans, the removal is
atomic on the state), and the liveness invariant (every entry's document id
corresponds to a live Document) is preserved by deletion. -/
theorem claim2_delete_completeness (ks : KnowledgeStore) (d : List Char) :
    (∀ (q : List Rat) (k : Nat) (div : Bool) (p : IndexEntry × Rat),
        p ∈ searchIndex (deleteDocument ks d).index q k div → p.1.docId ≠ d)
    ∧ (∀ e ∈ (deleteDocument ks d).index.entries, e.docId ≠ d)
    ∧ (wellFormedStore ks → wellFormedStore (deleteDocument ks d)) := by
  refine ⟨?_, ?_, ?_⟩
  · intro q k div p hp
    have h1 : p.1 ∈ (deleteDocument ks d).index.entries := mem_searchIndex hp
    simp only [deleteDocument, deleteByDocument] at h1
    have h2 := List.of_mem_filter h1
    intro heq
    rw [heq] at h2
    simp at h2
  · intro e he
    simp only [deleteDocument, deleteByDocument] at he
    have h2 := List.of_mem_filter he
    intro heq
    rw [heq] at h2
    simp at h2
  · intro hwf e he
    simp only [deleteDocument, deleteByDocument] at he ⊢
    have hmem := List.mem_of_mem_filter he
    have h2 := List.of_mem_filter he
    exact List.mem_filter.mpr ⟨hwf e hmem, h2⟩

/-- Witness for C2 at a concrete two-document store: after deleting
document `a`, a search that still returns the surviving chunk of `b`
references only `b`, and the liveness invariant is preserved. -/
theorem claim2_witness :
    ((⟨[], "b".toList, 0, 1, "yy".toList⟩ : IndexEntry), (0 : Rat)).1.docId ≠ "a".toList
    ∧ wellFormedStore (deleteDocument
        ⟨["a".toList, "b".toList],
          ⟨[⟨[], "a".toList, 0, 1, "xx".toList⟩, ⟨[], "b".toList, 0, 1, "yy".toList⟩]⟩⟩
        ("a".toList)) := by
  have hsearch : searchIndex (deleteDocument
      ⟨["a".toList, "b".toList],
        ⟨[⟨[], "a".toList, 0, 1, "xx".toList⟩, ⟨[], "b".toList, 0, 1, "yy".toList⟩]⟩⟩
      ("a".toList)).index [] 1 false
      = [((⟨[], "b".toList, 0, 1, "yy".toList⟩ : IndexEntry), (0 : Rat))] := by
    rfl
  refine ⟨?_, ?_⟩
  · exact (claim2_delete_completeness
      ⟨["a".toList, "b".toList],
        ⟨[⟨[], "a".toList, 0, 1, "xx".toList⟩, ⟨[], "b".toList, 0, 1, "yy".toList⟩]⟩⟩
      ("a".toList)).1 [] 1 false _ (by rw [hsearch]; exact List.mem_singleton.mpr rfl)
  · exact (claim2_delete_completeness
      ⟨["a".toList, "b".toList],
        ⟨[⟨[], "a".toList, 0, 1, "xx".toList⟩, ⟨[], "b".toList, 0, 1, "yy".toList⟩]⟩⟩
      ("a".toList)).2.2 (by unfold wellFormedStore; decide)

/-- C10.  Local score range: for every conversation history, turn count and
value of the random draw, `calculateLocalPerformanceScore` returns an
integer clamped to `[0, 100]`. -/
theorem claim10_local_score_range (hist : List (Option (List Char))) (tc : Nat) (rand : Rat) :
    0 ≤ calculateLocalPerformanceScore hist tc rand
    ∧ calculateLocalPerformanceScore hist tc rand ≤ 100 := by
  have h : ∀ x : Int, 0 ≤ min (max x 0) 100 ∧ min (max x 0) 100 ≤ 100 := by
    intro x
    constructor <;> omega
  exact h _

/-- C9.  Manual trimming bound: whenever `saveSessionData` writes the
session-data key, the written data (which is also the returned in-memory
data) satisfies `detailedMetrics.length ≤ 50`, `recentSessions.length ≤ 20`
and `length ≤ 20` for every skill history; when it does not write (the
validation-failure early return), the persisted session data is untouched. -/
theorem claim9_save_trims (storage : SimStorage) (sd : SessionData) (now : List Char) :
    ((saveSessionData storage sd now).2.2 = true →
        (saveSessionData storage sd now).1.simulationData
            = some ((saveSessionData storage sd now).2.1)
        ∧ ((saveSessionData storage sd now).2.1).detailedMetrics.length ≤ 50
        ∧ ((saveSessionData storage sd now).2.1).recentSessions.length ≤ 20
        ∧ ∀ p ∈ ((saveSessionData storage sd now).2.1).skillsHistory, p.2.length ≤ 20)
    ∧ ((saveSessionData storage sd now).2.2 = false →
        (saveSessionData storage sd now).1.simulationData = storage.simulationData) := by
  have hskills : ∀ (d : SessionData) (p : List Char × List SkillHistoryEntry),
      p ∈ (trimSession d).skillsHistory → p.2.length ≤ 20 := by
    intro d p hp
    simp only [trimSession] at hp
    rcases List.mem_map.mp hp with ⟨q, _, hq⟩
    rw [← hq]
    exact keepLast_length_le _ _
  by_cases hv : (validateSessionData { sd with lastUpdated := some now }).1
  · have he : saveSessionData storage sd now
        = ({ storage with
              simulationBackup := some sd
              simulationData := some (trimSession
                (validateSessionData { sd with lastUpdated := some now }).2) },
            trimSession (validateSessionData { sd with lastUpdated := some now }).2, true) := by
      unfold saveSessionData
      rw [if_pos hv]
    rw [he]
    refine ⟨fun _ => ⟨rfl, keepLast_length_le _ _, keepLast_length_le _ _, hskills _⟩, ?_⟩
    intro hfalse
    simp at hfalse
  · have he : saveSessionData storage sd now
        = ({ storage with simulationBackup := some sd }, sd, false) := by
      unfold saveSessionData
      rw [if_neg hv]
    rw [he]
    refine ⟨?_, fun _ => rfl⟩
    intro htrue
    simp at htrue

/-- Witness for C9 at a concrete storage and session data. -/
theorem claim9_witness :
    (saveSessionData ⟨none, none⟩
        ⟨[], 0, 0, 0, [], [], [], none⟩ ("t".toList)).2.2 = true
    ∧ (saveSessionData ⟨none, none⟩
        ⟨[], 0, 0, 0, [], [], [], none⟩ ("t".toList)).1.simulationData
        = some ((saveSessionData ⟨none, none⟩
            ⟨[], 0, 0, 0, [], [], [], none⟩ ("t".toList)).2.1) := by
  have hwrote : (saveSessionData ⟨none, none⟩
      ⟨[], 0, 0, 0, [], [], [], none⟩ ("t".toList)).2.2 = true := by
    norm_num [saveSessionData, validateSessionData]
  exact ⟨hwrote,
    ((claim9_save_trims ⟨none, none⟩ ⟨[], 0, 0, 0, [], [], [], none⟩ ("t".toList)).1 hwrote).1⟩

/-- C5.  Empty-query rejection: a raw query that is empty or consists only
of whitespace is rejected by the core with `InvalidQueryError` immediately
and no retrieval work is performed; and for such input the knowledge and
coaching front-end question handlers change nothing — no message is added
and no API request is made. -/
theorem claim5_empty_query_rejected (raw : List Char) (h : ∀ c ∈ raw, c.isWhitespace) :
    (∀ (s : RagState) (opts : AskOptions) (now : Nat),
        (askCore s raw opts now).1 = invalidQueryAnswer
        ∧ (askCore s raw opts now).2.1 = false)
    ∧ (∀ (st : KnowledgePage) (api : Except (List Char) AskApiResponse),
        st.inputValue = raw → askQuestionFE st api = st)
    ∧ (∀ (st : CoachingPage) (ct : List Char) (api : Except (List Char) CoachingApiResponse),
        st.inputValue = raw → askCoachingQuestionFE st ct api = st) := by
  have hsan := sanitizeQuery_of_all_whitespace h
  have htrim := jsTrim_of_all_whitespace h
  refine ⟨?_, ?_, ?_⟩
  · intro s opts now
    constructor <;> simp [askCore, hsan]
  · intro st api hst
    unfold askQuestionFE
    rw [hst, htrim]
    simp
  · intro st ct api hst
    unfold askCoachingQuestionFE
    rw [hst, htrim]
    simp

/-- Witness for C5 at the concrete whitespace-only input of two spaces. -/
theorem claim5_witness :
    (askCore (freshRagState 60) ("  ".toList) ⟨false, []⟩ 0).1 = invalidQueryAnswer
    ∧ askQuestionFE ⟨"  ".toList, false, [], []⟩ (Except.error [])
        = ⟨"  ".toList, false, [], []⟩
    ∧ askCoachingQuestionFE ⟨"  ".toList, false, [], 0, 0⟩ ("general".toList)
        (Except.error []) = ⟨"  ".toList, false, [], 0, 0⟩ := by
  have h := claim5_empty_query_rejected ("  ".toList) (by decide)
  exact ⟨(h.1 (freshRagState 60) ⟨false, []⟩ 0).1, h.2.1 _ _ rfl, h.2.2 _ _ _ rfl⟩

/-- C8.  Front-end offline fallback totality: whenever the coaching API
call throws, the handler appends the offline notice and then always a
locally generated coaching answer; `generateFallbackCoaching` returns a
non-empty response for every (question, coachingType) pair, and every
coaching type other than `competitive` and `objection_handling` (in
particular every type outside the three known keys) receives the general
response. -/
theorem claim8_offline_fallback :
    (∀ (st : CoachingPage) (ct m : List Char),
        jsTrim st.inputValue ≠ [] → st.isProcessing = false →
        (askCoachingQuestionFE st ct (Except.error m)).messages
          = st.messages ++ [(jsTrim st.inputValue, "user".toList),
              ("Network error. Using offline coaching mode.".toList, "bot".toList),
              (generateFallbackCoaching (jsTrim st.inputValue) ct, "bot".toList)])
    ∧ (∀ q ct, generateFallbackCoaching q ct ≠ [])
    ∧ (∀ q ct, ct ≠ "competitive".toList → ct ≠ "objection_handling".toList →
        generateFallbackCoaching q ct = generalResp) := by
  have hlook : ∀ q ct, generateFallbackCoaching q ct = competitiveResp
      ∨ generateFallbackCoaching q ct = objectionResp
      ∨ generateFallbackCoaching q ct = generalResp := by
    intro q ct
    unfold generateFallbackCoaching fallbackResponsesLookup
    by_cases h1 : ct = "competitive".toList
    · simp only [h1, if_true]
      left
      rfl
    · rw [if_neg h1]
      by_cases h2 : ct = "objection_handling".toList
      · simp only [h2, if_true]
        right; left
        rfl
      · rw [if_neg h2]
        by_cases h3 : ct = "general".toList
        · simp only [h3, if_true]
          right; right
          rfl
        · rw [if_neg h3]
          right; right
          rfl
  refine ⟨?_, ?_, ?_⟩
  · intro st ct m hne hproc
    unfold askCoachingQuestionFE
    have hie : (jsTrim st.inputValue).isEmpty = false := by
      cases hjt : jsTrim st.inputValue
      · exact absurd hjt hne
      · rfl
    simp [hie, hproc]
  · intro q ct
    rcases hlook q ct with h1 | h1 | h1 <;> rw [h1] <;> decide
  · intro q ct h1 h2
    unfold generateFallbackCoaching fallbackResponsesLookup
    rw [if_neg h1, if_neg h2]
    by_cases h3 : ct = "general".toList
    · simp only [h3, if_true]
      rfl
    · rw [if_neg h3]

/-- Witness for C8 at a concrete page state and unknown coaching type. -/
theorem claim8_witness :
    (askCoachingQuestionFE ⟨"help me".toList, false, [], 0, 0⟩ ("mystery".toList)
        (Except.error ("boom".toList))).messages
      = [] ++ [(jsTrim ("help me".toList), "user".toList),
          ("Network error. Using offline coaching mode.".toList, "bot".toList),
          (generateFallbackCoaching (jsTrim ("help me".toList)) ("mystery".toList),
            "bot".toList)]
    ∧ generateFallbackCoaching ("help me".toList) ("mystery".toList) = generalResp := by
  have h := claim8_offline_fallback
  exact ⟨h.1 ⟨"help me".toList, false, [], 0, 0⟩ ("mystery".toList) ("boom".toList)
      (by decide) rfl,
    h.2.2 ("help me".toList) ("mystery".toList) (by decide) (by decide)⟩

/-- C7 counterexample: with the same inputs (empty conversation history,
zero turn count) two runs of the local performance scoring that differ only
in the internal `Math.random()` draw produce different overall scores
(53 versus 60), so the locally computed fallback score is not deterministic
across runs. -/
theorem claim7_counterexample :
    calculateLocalPerformanceScore [] 0 0 ≠ calculateLocalPerformanceScore [] 0 (7 / 15) := by
  have h1 : calculateLocalPerformanceScore [] 0 0 = 53 := by
    norm_num [calculateLocalPerformanceScore, jsRound]
  have h2 : calculateLocalPerformanceScore [] 0 (7 / 15) = 60 := by
    norm_num [calculateLocalPerformanceScore, jsRound]
  rw [h1, h2]
  decide

/-- C7 (amended).  The locally generated coaching fallback answer is
deterministic — it depends only on the coaching type (the question is
ignored) and is always one of three fixed non-empty guides; the
spec-modelled composer returns the generic "not found" text only when
retrieval returned zero chunks; and the simulation's local overall score is
deterministic only given the internal random draw: runs with the same
history, turn count and draw agree, while different draws may differ. -/
theorem claim7_fallback_determinism :
    (∀ q1 q2 ct, generateFallbackCoaching q1 ct = generateFallbackCoaching q2 ct)
    ∧ (∀ q ct, generateFallbackCoaching q ct = competitiveResp
        ∨ generateFallbackCoaching q ct = objectionResp
        ∨ generateFallbackCoaching q ct = generalResp)
    ∧ (∀ (qa : QueryAnalysis) (chunks : List (IndexEntry × Rat)), chunks ≠ [] →
        (composeAnswer qa chunks).text ≠ noResultsText)
    ∧ (∀ hist tc r1 r2, r1 = r2 →
        calculateLocalPerformanceScore hist tc r1 = calculateLocalPerformanceScore hist tc r2) := by
  refine ⟨fun q1 q2 ct => rfl, ?_, ?_, fun hist tc r1 r2 hr => by rw [hr]⟩
  · intro q ct
    unfold generateFallbackCoaching fallbackResponsesLookup
    by_cases h1 : ct = "competitive".toList
    · simp only [h1, if_true]
      left
      rfl
    · rw [if_neg h1]
      by_cases h2 : ct = "objection_handling".toList
      · simp only [h2, if_true]
        right; left
        rfl
      · rw [if_neg h2]
        by_cases h3 : ct = "general".toList
        · simp only [h3, if_true]
          right; right
          rfl
        · rw [if_neg h3]
          right; right
          rfl
  · intro qa chunks hne heq
    cases chunks with
    | nil => exact hne rfl
    | cons c cs =>
      have hB : ((composeAnswer qa (c :: cs)).text).headD ' ' = 'B' := rfl
      rw [heq] at hB
      have hN : noResultsText.headD ' ' = 'N' := rfl
      rw [hN] at hB
      exact absurd hB (by decide)

/-- Witness for C7 (amended) at concrete inputs. -/
theorem claim7_witness :
    (composeAnswer (mkAnalysis ("hi".toList)) [(⟨[], "a".toList, 0, 1, "xx".toList⟩, 0)]).text
        ≠ noResultsText
    ∧ generateFallbackCoaching ("q1".toList) ("competitive".toList)
        = generateFallbackCoaching ("q2".toList) ("competitive".toList)
    ∧ calculateLocalPerformanceScore [] 2 (1 / 2) = calculateLocalPerformanceScore [] 2 (1 / 2) := by
  have h := claim7_fallback_determinism
  exact ⟨h.2.2.1 _ _ (by simp), h.1 _ _ _, h.2.2.2 [] 2 (1 / 2) (1 / 2) rfl⟩

/-- C6 counterexample: the request body actually built by `askQuestion` has
no `options` field at all — `use_web_search` sits at the top level — so the
request is not of the claimed form
`(question: string, options: (use_web_search?, language?))`. -/
theorem claim6_counterexample :
    jsonLookup (askRequestBody ("What does Policy X cover?".toList)) ("options".toList)
      = none := by
  rfl

/-- C6 (amended).  Every request sent over the query boundary by the web
chat front-end is the JSON object with exactly the fields `question` (the
trimmed input string) and a top-level `use_web_search: false` — there is no
`options` wrapper; every successful response consumed there provides
`status`, `answer` and a `sources` list whose entries carry
`metadata.filename` and `content`, of which the front-end renders the
filename (defaulting to `Unknown`) and a 100-character excerpt of the
content after the answer — no per-source score is consumed or rendered. -/
theorem claim6_query_boundary :
    (∀ q, jsonKeys (askRequestBody q) = ["question".toList, "use_web_search".toList]
      ∧ jsonLookup (askRequestBody q) ("question".toList) = some (.str q)
      ∧ jsonLookup (askRequestBody q) ("use_web_search".toList) = some (.jbool false)
      ∧ jsonLookup (askRequestBody q) ("options".toList) = none)
    ∧ (∀ (st : KnowledgePage) (api : Except (List Char) AskApiResponse),
        (askQuestionFE st api).requests = st.requests
        ∨ (askQuestionFE st api).requests
            = st.requests ++ [askRequestBody (jsTrim st.inputValue)])
    ∧ (∀ data : AskApiResponse, data.status = "success".toList →
        data.answer <+: renderBotMessage data
        ∧ ∀ s ∈ data.sources,
            displayFilename s <:+: renderBotMessage data
            ∧ s.content.take 100 <:+: renderBotMessage data) := by
  refine ⟨?_, ?_, ?_⟩
  · intro q
    exact ⟨rfl, rfl, rfl, rfl⟩
  · intro st api
    unfold askQuestionFE
    by_cases hg : ((jsTrim st.inputValue).isEmpty || st.isProcessing) = true
    · rw [if_pos hg]
      exact Or.inl rfl
    · rw [if_neg hg]
      rcases api with m | data
      · exact Or.inr rfl
      · right
        dsimp only
        split <;> rfl
  · intro data hstatus
    constructor
    · exact ⟨_, rfl⟩
    · intro s hs
      have hne : data.sources.isEmpty = false := by
        cases hd : data.sources
        · rw [hd] at hs
          exact absurd hs (List.not_mem_nil s)
        · rfl
      have hrb : renderBotMessage data
          = data.answer ++ ("\\n\\n<div class=\"sources\"><h4>Sources:</h4>".toList
              ++ renderSourceItems 0 data.sources ++ "</div>".toList) := by
        unfold renderBotMessage
        rw [hne]
        rfl
      obtain ⟨j, hj⟩ := item_within_items data.sources 0 hs
      constructor
      · rw [hrb]
        exact part_append_left (part_append_right (part_append_left
          ((displayFilename_within_item j s).trans hj)))
      · rw [hrb]
        exact part_append_left (part_append_right (part_append_left
          ((excerpt_within_item j s).trans hj)))

/-- Witness for C6 (amended) at a concrete request and response. -/
theorem claim6_witness :
    jsonKeys (askRequestBody ("hi".toList)) = ["question".toList, "use_web_search".toList]
    ∧ (("the answer".toList : List Char) <+: renderBotMessage
        ⟨"success".toList, "the answer".toList,
          [⟨some ("doc.pdf".toList), "content here".toList⟩], []⟩)
    ∧ displayFilename ⟨some ("doc.pdf".toList), "content here".toList⟩ <:+:
        renderBotMessage ⟨"success".toList, "the answer".toList,
          [⟨some ("doc.pdf".toList), "content here".toList⟩], []⟩ := by
  have h := claim6_query_boundary
  refine ⟨(h.1 ("hi".toList)).1,
    (h.2.2 ⟨"success".toList, "the answer".toList,
      [⟨some ("doc.pdf".toList), "content here".toList⟩], []⟩ rfl).1, ?_⟩
  exact ((h.2.2 ⟨"success".toList, "the answer".toList,
      [⟨some ("doc.pdf".toList), "content here".toList⟩], []⟩ rfl).2
    ⟨some ("doc.pdf".toList), "content here".toList⟩ (by simp)).1

theorem searchIndex_empty (q : List Rat) (k : Nat) (div : Bool) :
    searchIndex emptyIndex q k div = [] := by
  unfold searchIndex emptyIndex
  cases div
  · cases k <;> rfl
  · cases k <;> rfl

theorem addEntries_nil (idx : VectorIndex) : addEntries idx [] = idx := by
  unfold addEntries
  have hall : ∀ e ∈ idx.entries,
      (!(List.any ([] : List IndexEntry)
          (fun n => n.docId == e.docId && n.chunkIndex == e.chunkIndex))) = true :=
    fun e _ => rfl
  rw [List.filter_eq_self.mpr hall, List.append_nil]

/-- C4.  Empty-index behavior: `search` on an empty index returns the empty
sequence for every query vector, `k` and diversity mode (never an error);
`add` with a zero-length entry list is a no-op; and `ask` against a freshly
created empty index on a valid (sanitizable) query returns a success
status with an empty sources list and a low confidence score (below 3/10),
never an error. -/
theorem claim4_empty_index_behavior :
    (∀ (q : List Rat) (k : Nat) (div : Bool), searchIndex emptyIndex q k div = [])
    ∧ (∀ idx : VectorIndex, addEntries idx [] = idx)
    ∧ (∀ (ttl : Nat) (raw q : List Char) (opts : AskOptions) (now : Nat),
        sanitizeQuery raw = some q →
        (askCore (freshRagState ttl) raw opts now).1.status = .success
        ∧ (askCore (freshRagState ttl) raw opts now).1.sources = []
        ∧ (askCore (freshRagState ttl) raw opts now).1.metrics.confidenceScore < 3 / 10) := by
  refine ⟨searchIndex_empty, addEntries_nil, ?_⟩
  intro ttl raw q opts now hq
  have hget : (cacheGet (freshCache ttl) (cacheKey raw opts.useWebSearch opts.language) now).1
      = none := rfl
  have hask : askCore (freshRagState ttl) raw opts now
      = (let qa := mkAnalysis q
         let results := searchIndex emptyIndex
           (qa.enhanced.map (fun c => (c.toNat : Rat))) 5 true
         let a0 := composeAnswer qa results
         let a := { a0 with metrics := { a0.metrics with queryTime := 1 + results.length } }
         (a, true,
          { freshRagState ttl with
            cache := cachePut (freshCache ttl)
              (cacheKey raw opts.useWebSearch opts.language) a now })) := by
    unfold askCore
    rw [hq]
    rfl
  rw [hask]
  simp only [searchIndex_empty]
  refine ⟨rfl, rfl, ?_⟩
  norm_num [composeAnswer]

/-- Witness for C4 at a concrete valid query against the fresh core. -/
theorem claim4_witness :
    sanitizeQuery ("hello".toList) = some ("hello".toList)
    ∧ (askCore (freshRagState 60) ("hello".toList) ⟨false, []⟩ 0).1.status = .success
    ∧ (askCore (freshRagState 60) ("hello".toList) ⟨false, []⟩ 0).1.sources = [] := by
  have hs : sanitizeQuery ("hello".toList) = some ("hello".toList) := by rfl
  have h := claim4_empty_index_behavior
  exact ⟨hs, (h.2.2 60 ("hello".toList) ("hello".toList) ⟨false, []⟩ 0 hs).1,
    (h.2.2 60 ("hello".toList) ("hello".toList) ⟨false, []⟩ 0 hs).2.1⟩

theorem askCore_miss_eq (s : RagState) (raw q : List Char) (opts : AskOptions) (now : Nat)
    (hsan : sanitizeQuery raw = some q)
    (hmiss : (cacheGet s.cache (cacheKey raw opts.useWebSearch opts.language) now).1 = none) :
    askCore s raw opts now = (askMissAnswer s q, true,
      { s with cache := (cachePut (cacheGet s.cache (cacheKey raw opts.useWebSearch opts.language) now).2 (cacheKey raw opts.useWebSearch opts.language) (askMissAnswer s q) now) }) := by
  unfold askCore
  rw [hsan]
  dsimp only
  rw [hmiss]
  rfl

theorem askCore_hit_eq (s : RagState) (raw q : List Char) (opts : AskOptions) (now : Nat)
    (a : Answer) (hsan : sanitizeQuery raw = some q)
    (hhit : (cacheGet s.cache (cacheKey raw opts.useWebSearch opts.language) now).1 = some a) :
    askCore s raw opts now = (zeroTimeAnswer a, false,
      { s with cache :=
          (cacheGet s.cache (cacheKey raw opts.useWebSearch opts.language) now).2 }) := by
  unfold askCore
  rw [hsan]
  dsimp only
  rw [hhit]

/-- C3.  Cache correctness: when the first `ask` for `(raw, options)` is a
cache miss (and the cache has capacity), a second `ask` with the identical
`(raw, options)` within the TTL window returns the identical answer text,
performs no retrieval/generation work (the orchestrator is
short-circuited), and reports a zero query time — it is served from the
cache. -/
theorem claim3_cache_correctness (s : RagState) (raw : List Char) (opts : AskOptions)
    (t1 t2 : Nat)
    (hmiss : (cacheGet s.cache (cacheKey raw opts.useWebSearch opts.language) t1).1 = none)
    (hcap : 1 ≤ s.cache.capacity) (httl : t2 - t1 ≤ s.cache.ttl) :
    (askCore ((askCore s raw opts t1).2.2) raw opts t2).1.text
        = (askCore s raw opts t1).1.text
    ∧ (askCore ((askCore s raw opts t1).2.2) raw opts t2).2.1 = false
    ∧ (askCore ((askCore s raw opts t1).2.2) raw opts t2).1.metrics.queryTime = 0 := by
  cases hsan : sanitizeQuery raw with
  | none =>
    have h1 : askCore s raw opts t1 = (invalidQueryAnswer, false, s) := by
      unfold askCore
      rw [hsan]
    have h2 : askCore s raw opts t2 = (invalidQueryAnswer, false, s) := by
      unfold askCore
      rw [hsan]
    rw [h1]
    refine ⟨by rw [h2], by rw [h2], ?_⟩
    rw [h2]
    rfl
  | some q =>
    have h1 := askCore_miss_eq s raw q opts t1 hsan hmiss
    have hcap2 : 1 ≤ ((cacheGet s.cache (cacheKey raw opts.useWebSearch opts.language) t1).2).capacity := by
      rw [cacheGet_snd_capacity]
      exact hcap
    have httl2 : t2 - t1 ≤ ((cacheGet s.cache (cacheKey raw opts.useWebSearch opts.language) t1).2).ttl := by
      rw [cacheGet_snd_ttl]
      exact httl
    have hhit := cacheGet_cachePut_same
      ((cacheGet s.cache (cacheKey raw opts.useWebSearch opts.language) t1).2)
      (cacheKey raw opts.useWebSearch opts.language) (askMissAnswer s q) t1 t2 hcap2 httl2
    have h2 := askCore_hit_eq
      { s with cache := (cachePut (cacheGet s.cache (cacheKey raw opts.useWebSearch opts.language) t1).2 (cacheKey raw opts.useWebSearch opts.language) (askMissAnswer s q) t1) }
      raw q opts t2 (askMissAnswer s q) hsan hhit
    rw [h1]
    dsimp only
    refine ⟨?_, ?_, ?_⟩
    · rw [h2]
      rfl
    · rw [h2]
    · rw [h2]
      rfl

/-- Witness for C3: two identical questions against the fresh core at times
0 and 1 within the 60-unit TTL. -/
theorem claim3_witness :
    (askCore ((askCore (freshRagState 60) ("hello".toList) ⟨false, []⟩ 0).2.2)
        ("hello".toList) ⟨false, []⟩ 1).1.text
      = (askCore (freshRagState 60) ("hello".toList) ⟨false, []⟩ 0).1.text
    ∧ (askCore ((askCore (freshRagState 60) ("hello".toList) ⟨false, []⟩ 0).2.2)
        ("hello".toList) ⟨false, []⟩ 1).2.1 = false := by
  have h := claim3_cache_correctness (freshRagState 60) ("hello".toList) ⟨false, []⟩ 0 1
    rfl (by decide) (by decide)
  exact ⟨h.1, h.2.1⟩
